import Mathlib

/-!
Verification of the event-tracker service against its design specification.

Go values are shallowly embedded: `time.Time` becomes an integer number of
nanoseconds since the zero timestamp (so the zero timestamp is `0` and
`t.After(u)` is `u < t`); Go strings become `String`; `[]byte` digests become
`List Nat` with every entry below 256; the process clock (`time.Now()`) and
the random id draw (`rand.Int63()`) become explicit parameters `now` and
`newId`.  Fallible Go code returning `error` is modelled by returning the
(possibly mutated) value together with an `Option String` error, mirroring a
method that mutates its receiver and reports failure.
-/

/-- Go `time.Time`, as nanoseconds since the zero timestamp.  `IsZero`
becomes equality with `0`, and `a.After b` becomes `b < a`. -/
abbrev GoTime := Int

/-- Model of `NullTime` (null-time.go): a timestamp with a presence flag,
embedding `sql.NullTime`. -/
structure NullTime where
  valid : Bool
  time : GoTime
deriving DecidableEq, Repr

/-- The JSON value shapes relevant to `NullTime.UnmarshalJSON`: after
`json.Unmarshal(data, &t)` with `t : *time.Time`, either the input was the
JSON literal `null` (t stays nil) or a valid timestamp text (t points at the
parsed instant).  Syntactically invalid inputs make `json.Unmarshal` return
an error before the `NullTime` logic runs and are outside this type. -/
inductive TimeJson where
  | jnull
  | jtime (t : GoTime)
deriving DecidableEq, Repr

namespace NullTime

/-- Model of `NullTime.UnmarshalJSON` (null-time.go lines 13-28): the
decoded pointer is kept only when non-nil and not the zero timestamp;
otherwise the receiver is marked absent with a zero time. -/
def UnmarshalJSON : TimeJson → NullTime
  | TimeJson.jnull => { valid := false, time := 0 }
  | TimeJson.jtime t =>
      if t ≠ 0 then { valid := true, time := t }
      else { valid := false, time := 0 }

/-- Model of `NullTime.MarshalJSON` (null-time.go lines 30-36): a present
value serializes as its timestamp, an absent one as the JSON `null`. -/
def MarshalJSON (n : NullTime) : TimeJson :=
  if n.valid then TimeJson.jtime n.time else TimeJson.jnull

end NullTime

/-- Model of `Event` (event.go): the canonical record every entry path
funnels through.  The metadata field is Go `interface{}`, modelled by a type
parameter. -/
structure Event (M : Type) where
  id : Int
  eventType : String
  notes : String
  startTime : GoTime
  endTime : NullTime
  metadata : M
  dryRun : Bool
deriving DecidableEq, Repr

namespace Event

/-- Model of `Event.ValidateAndRectify` (event.go lines 20-38).  The Go
method mutates its receiver and returns an `error`; here it returns the
post-call receiver paired with the error.  `now` stands for `time.Now()`
and `newId` for `rand.Int63()`. -/
def ValidateAndRectify {M : Type} (now newId : Int) (e : Event M) :
    Event M × Option String :=
  if e.eventType.length = 0 then
    (e, some "event_type parameter is required")
  else if e.notes.length = 0 then
    (e, some "notes parameter is required")
  else
    let e1 := if e.startTime = 0 then { e with startTime := now } else e
    let e2 :=
      if e1.endTime.valid = true ∧ ¬ e1.startTime < e1.endTime.time then
        { e1 with endTime := { e1.endTime with valid := false } }
      else e1
    ({ e2 with id := newId }, none)

end Event

/-- Helper frame lemma: `ValidateAndRectify` never touches `eventType`,
`notes`, `metadata`, `dryRun`, or the stored `endTime` instant (it only
flips the presence flag), whether it succeeds or fails. -/
theorem vr_frame {M : Type} (now newId : Int) (e : Event M) :
    (Event.ValidateAndRectify now newId e).1.eventType = e.eventType ∧
    (Event.ValidateAndRectify now newId e).1.notes = e.notes ∧
    (Event.ValidateAndRectify now newId e).1.metadata = e.metadata ∧
    (Event.ValidateAndRectify now newId e).1.dryRun = e.dryRun ∧
    (Event.ValidateAndRectify now newId e).1.endTime.time = e.endTime.time := by
  unfold Event.ValidateAndRectify
  by_cases h1 : e.eventType.length = 0 <;>
    by_cases h2 : e.notes.length = 0 <;>
    by_cases h3 : e.startTime = 0 <;>
    simp [h1, h2, h3] <;>
    split <;> simp

/-- Helper: on success the start time is the defaulted one. -/
theorem vr_start {M : Type} (now newId : Int) (e : Event M)
    (ht : e.eventType.length ≠ 0) (hn : e.notes.length ≠ 0) :
    (Event.ValidateAndRectify now newId e).1.startTime =
      (if e.startTime = 0 then now else e.startTime) ∧
    (Event.ValidateAndRectify now newId e).2 = none := by
  unfold Event.ValidateAndRectify
  by_cases h3 : e.startTime = 0 <;>
    simp [ht, hn, h3] <;> split <;> simp

/-- Helper: on success the resulting end time is the input one with its
presence flag cleared exactly when the instant is not strictly after the
(possibly defaulted) start time. -/
theorem vr_end {M : Type} (now newId : Int) (e : Event M)
    (ht : e.eventType.length ≠ 0) (hn : e.notes.length ≠ 0) :
    (Event.ValidateAndRectify now newId e).1.endTime =
      (if e.endTime.valid = true ∧
          ¬ (if e.startTime = 0 then now else e.startTime) < e.endTime.time then
        { e.endTime with valid := false }
      else e.endTime) := by
  unfold Event.ValidateAndRectify
  by_cases h3 : e.startTime = 0 <;> simp [ht, hn, h3] <;> split <;> simp_all

/-- Helper: on success the id is the freshly drawn one. -/
theorem vr_id {M : Type} (now newId : Int) (e : Event M)
    (ht : e.eventType.length ≠ 0) (hn : e.notes.length ≠ 0) :
    (Event.ValidateAndRectify now newId e).1.id = newId := by
  unfold Event.ValidateAndRectify
  by_cases h3 : e.startTime = 0 <;> simp [ht, hn, h3]

/-- C1: after a successful `ValidateAndRectify` on a candidate whose
`end_time` is present, the `end_time` ends up absent exactly when the
supplied instant is not strictly after the (possibly just-defaulted)
`start_time`; when it is strictly after, the instant is kept unchanged; an
instant equal to `start_time` is cleared; clearing is silent (no error). -/
theorem claim_C1_endTime_rectify {M : Type} (e : Event M) (now newId : Int)
    (hvalid : e.endTime.valid = true)
    (ht : e.eventType.length ≠ 0) (hn : e.notes.length ≠ 0) :
    (Event.ValidateAndRectify now newId e).2 = none ∧
    ((Event.ValidateAndRectify now newId e).1.endTime.valid = false ↔
      ¬ (if e.startTime = 0 then now else e.startTime) < e.endTime.time) ∧
    ((if e.startTime = 0 then now else e.startTime) < e.endTime.time →
      (Event.ValidateAndRectify now newId e).1.endTime.valid = true ∧
      (Event.ValidateAndRectify now newId e).1.endTime.time = e.endTime.time) ∧
    ((if e.startTime = 0 then now else e.startTime) = e.endTime.time →
      (Event.ValidateAndRectify now newId e).1.endTime.valid = false) := by
  have hee := vr_end now newId e ht hn
  refine ⟨(vr_start now newId e ht hn).2, ?_, ?_, ?_⟩
  · by_cases hlt : (if e.startTime = 0 then now else e.startTime) < e.endTime.time
    · rw [hee]
      simp [hlt, hvalid]
    · rw [hee]
      simp [hlt, hvalid]
  · intro hlt
    rw [hee]
    simp [hlt, hvalid]
  · intro heq
    rw [hee]
    simp [hvalid, heq]

/-- Concrete instance of C1: start 5, end 5 (not strictly after) is cleared. -/
theorem claim_C1_witness :
    (Event.ValidateAndRectify (M := Unit) 9 7
      { id := 0, eventType := "x", notes := "y", startTime := 5,
        endTime := { valid := true, time := 5 }, metadata := (), dryRun := false
      }).1.endTime.valid = false :=
  (claim_C1_endTime_rectify _ 9 7 rfl (by decide) (by decide)).2.2.2 (by decide)

/-- C2: an empty `event_type` or empty `notes` makes `ValidateAndRectify`
fail with a descriptive error and leave the candidate untouched; the
`event_type` check runs first. -/
theorem claim_C2_reject_no_mutation {M : Type} (e : Event M) (now newId : Int) :
    (e.eventType.length = 0 →
      Event.ValidateAndRectify now newId e =
        (e, some "event_type parameter is required")) ∧
    (e.eventType.length ≠ 0 → e.notes.length = 0 →
      Event.ValidateAndRectify now newId e =
        (e, some "notes parameter is required")) ∧
    ((e.eventType.length = 0 ∨ e.notes.length = 0) →
      (Event.ValidateAndRectify now newId e).1 = e) := by
  unfold Event.ValidateAndRectify
  by_cases h1 : e.eventType.length = 0 <;> by_cases h2 : e.notes.length = 0 <;>
    simp [h1, h2]

/-- Concrete instance of C2: both fields empty yields the event-type error
and no mutation. -/
theorem claim_C2_witness :
    Event.ValidateAndRectify (M := Unit) 3 4
      { id := 0, eventType := "", notes := "", startTime := 5,
        endTime := { valid := false, time := 0 }, metadata := (), dryRun := false
      } =
      ({ id := 0, eventType := "", notes := "", startTime := 5,
         endTime := { valid := false, time := 0 }, metadata := (),
         dryRun := false }, some "event_type parameter is required") :=
  (claim_C2_reject_no_mutation _ 3 4).1 (by decide)

/-- C3, counterexample to strict positivity: Go `rand.Int63()` ranges over
`[0, 2 ^ 63)` including zero, and on the zero draw `ValidateAndRectify`
succeeds but assigns id `0`, which is not strictly positive (the input id
`1` shows the zero really is assigned, not left over). -/
theorem claim_C3_zero_draw_counterexample :
    (Event.ValidateAndRectify (M := Unit) 3 0
      { id := 1, eventType := "a", notes := "b", startTime := 5,
        endTime := { valid := false, time := 0 }, metadata := (), dryRun := true
      }).2 = none ∧
    (Event.ValidateAndRectify (M := Unit) 3 0
      { id := 1, eventType := "a", notes := "b", startTime := 5,
        endTime := { valid := false, time := 0 }, metadata := (), dryRun := true
      }).1.id = 0 ∧
    ¬ 0 < (Event.ValidateAndRectify (M := Unit) 3 0
      { id := 1, eventType := "a", notes := "b", startTime := 5,
        endTime := { valid := false, time := 0 }, metadata := (), dryRun := true
      }).1.id := by
  refine ⟨?_, ?_, ?_⟩ <;> decide

/-- C3 as amended: with non-empty `event_type` and `notes`,
`ValidateAndRectify` succeeds and assigns the `rand.Int63()` draw as the
id; over the draw range `[0, 2 ^ 63)` the assigned id is non-negative and
below `2 ^ 63`, and it is strictly positive exactly when the draw is
non-zero (the zero draw, probability `2 ^ -63`, yields id `0`). -/
theorem claim_C3_success_id {M : Type} (e : Event M) (now newId : Int)
    (ht : e.eventType.length ≠ 0) (hn : e.notes.length ≠ 0)
    (hlo : 0 ≤ newId) (hbound : newId < 2 ^ 63) :
    (Event.ValidateAndRectify now newId e).2 = none ∧
    (Event.ValidateAndRectify now newId e).1.id = newId ∧
    0 ≤ (Event.ValidateAndRectify now newId e).1.id ∧
    (Event.ValidateAndRectify now newId e).1.id < 2 ^ 63 ∧
    (0 < (Event.ValidateAndRectify now newId e).1.id ↔ 0 < newId) := by
  refine ⟨(vr_start now newId e ht hn).2, vr_id now newId e ht hn, ?_, ?_, ?_⟩
  · rw [vr_id now newId e ht hn]
    exact hlo
  · rw [vr_id now newId e ht hn]
    exact hbound
  · rw [vr_id now newId e ht hn]

/-- Concrete instance of C3: a non-zero draw yields that strictly positive
id. -/
theorem claim_C3_witness :
    (Event.ValidateAndRectify (M := Unit) 3 4
      { id := 0, eventType := "a", notes := "b", startTime := 0,
        endTime := { valid := false, time := 0 }, metadata := (), dryRun := true
      }).2 = none ∧
    (Event.ValidateAndRectify (M := Unit) 3 4
      { id := 0, eventType := "a", notes := "b", startTime := 0,
        endTime := { valid := false, time := 0 }, metadata := (), dryRun := true
      }).1.id = 4 ∧
    0 < (Event.ValidateAndRectify (M := Unit) 3 4
      { id := 0, eventType := "a", notes := "b", startTime := 0,
        endTime := { valid := false, time := 0 }, metadata := (), dryRun := true
      }).1.id :=
  ⟨(claim_C3_success_id _ 3 4 (by decide) (by decide) (by decide) (by decide)).1,
   (claim_C3_success_id _ 3 4 (by decide) (by decide) (by decide) (by decide)).2.1,
   (claim_C3_success_id _ 3 4 (by decide) (by decide) (by decide)
     (by decide)).2.2.2.2.mpr (by decide)⟩

/-- C4: on a successful run, a zero/unset `start_time` is replaced by the
current wall-clock instant (`now`, the value of `time.Now()` during the
call) and a non-zero `start_time` is kept unchanged. -/
theorem claim_C4_start_default {M : Type} (e : Event M) (now newId : Int)
    (hsucc : (Event.ValidateAndRectify now newId e).2 = none) :
    (e.startTime = 0 → (Event.ValidateAndRectify now newId e).1.startTime = now) ∧
    (e.startTime ≠ 0 →
      (Event.ValidateAndRectify now newId e).1.startTime = e.startTime) := by
  by_cases h1 : e.eventType.length = 0
  · exfalso
    revert hsucc
    unfold Event.ValidateAndRectify
    simp [h1]
  · by_cases h2 : e.notes.length = 0
    · exfalso
      revert hsucc
      unfold Event.ValidateAndRectify
      simp [h1, h2]
    · have h := vr_start now newId e h1 h2
      constructor
      · intro hz
        rw [h.1, if_pos hz]
      · intro hz
        rw [h.1, if_neg hz]

/-- Concrete instance of C4: unset start time becomes `now = 9`. -/
theorem claim_C4_witness :
    (Event.ValidateAndRectify (M := Unit) 9 7
      { id := 0, eventType := "a", notes := "b", startTime := 0,
        endTime := { valid := false, time := 0 }, metadata := (), dryRun := true
      }).1.startTime = 9 :=
  (claim_C4_start_default _ 9 7 (by decide)).1 rfl

/-- C10: `ValidateAndRectify` leaves `event_type`, `notes`, `metadata` and
the dry-run flag unchanged whether it succeeds or fails, and even the stored
`end_time` instant is untouched (only the presence flag, the start time and
the id are ever written). -/
theorem claim_C10_frame {M : Type} (e : Event M) (now newId : Int) :
    (Event.ValidateAndRectify now newId e).1.eventType = e.eventType ∧
    (Event.ValidateAndRectify now newId e).1.notes = e.notes ∧
    (Event.ValidateAndRectify now newId e).1.metadata = e.metadata ∧
    (Event.ValidateAndRectify now newId e).1.dryRun = e.dryRun ∧
    (Event.ValidateAndRectify now newId e).1.endTime.time = e.endTime.time :=
  vr_frame now newId e

/-- C7: the nullable-timestamp type round-trips.  Deserializing `null` or a
zero-valued timestamp yields the absent state, any other timestamp yields
present with that instant; serializing absent yields `null` and present
yields the timestamp; deserializing a serialized value reproduces the
presence flag always, and the full presence/value pair for every
non-pathological value (present values carry a non-zero instant). -/
theorem claim_C7_nulltime_roundtrip :
    (NullTime.UnmarshalJSON TimeJson.jnull = { valid := false, time := 0 }) ∧
    (∀ t : GoTime, t ≠ 0 →
      NullTime.UnmarshalJSON (TimeJson.jtime t) = { valid := true, time := t }) ∧
    (NullTime.UnmarshalJSON (TimeJson.jtime 0) = { valid := false, time := 0 }) ∧
    (∀ n : NullTime, n.valid = false → NullTime.MarshalJSON n = TimeJson.jnull) ∧
    (∀ n : NullTime, n.valid = true →
      NullTime.MarshalJSON n = TimeJson.jtime n.time) ∧
    (∀ n : NullTime, n.valid = true → n.time ≠ 0 →
      NullTime.UnmarshalJSON (NullTime.MarshalJSON n) = n) ∧
    (∀ n : NullTime, n.valid = false →
      (NullTime.UnmarshalJSON (NullTime.MarshalJSON n)).valid = false) := by
  refine ⟨rfl, ?_, rfl, ?_, ?_, ?_, ?_⟩
  · intro t ht
    simp [NullTime.UnmarshalJSON, ht]
  · intro n hn
    simp [NullTime.MarshalJSON, hn]
  · intro n hn
    simp [NullTime.MarshalJSON, hn]
  · intro n hn hz
    obtain ⟨v, t⟩ := n
    simp only at hn hz
    subst hn
    simp [NullTime.MarshalJSON, NullTime.UnmarshalJSON, hz]
  · intro n hn
    simp [NullTime.MarshalJSON, NullTime.UnmarshalJSON, hn]

/-- Concrete instance of C7: a present instant survives the round trip. -/
theorem claim_C7_witness :
    NullTime.UnmarshalJSON (NullTime.MarshalJSON { valid := true, time := 5 }) =
      { valid := true, time := 5 } :=
  claim_C7_nulltime_roundtrip.2.2.2.2.2.1 { valid := true, time := 5 } rfl
    (by decide)

/-!
Hexadecimal encoding and the exact behaviour of Go `encoding/hex.Decode`
when called the way the two request validators call it: into a
preallocated, zeroed destination buffer, with the returned error ignored.
Go `Decode` processes the source two characters at a time, stops at the
first non-hex character or odd tail (leaving the rest of the buffer
zeroed), and writes each decoded byte into the destination unconditionally,
so a source holding more valid pairs than the buffer has room for indexes
past the end of the buffer and panics at runtime.
-/

/-- Lowercase hex digit, as in the Go `encoding/hex` table. -/
def hexDigitChar (n : Nat) : Char :=
  if n < 10 then Char.ofNat (48 + n)
  else if n < 16 then Char.ofNat (87 + n)
  else '?'

/-- Model of Go `fromHexChar`: value of one hex character. -/
def hexVal (c : Char) : Option Nat :=
  if '0' ≤ c ∧ c ≤ '9' then some (c.toNat - 48)
  else if 'a' ≤ c ∧ c ≤ 'f' then some (c.toNat - 87)
  else if 'A' ≤ c ∧ c ≤ 'F' then some (c.toNat - 55)
  else none

/-- Hex encoding of a byte list, two characters per byte. -/
def hexEncodeChars : List Nat → List Char
  | [] => []
  | b :: rest => hexDigitChar (b / 16) :: hexDigitChar (b % 16) :: hexEncodeChars rest

/-- Hex encoding as a string, as produced by Go `hex.EncodeToString`. -/
def hexEncode (bs : List Nat) : String := String.mk (hexEncodeChars bs)

/-- Core loop of Go `hex.Decode` with the destination capacity threaded
through: returns the bytes actually written, or `none` when the loop would
write past the destination (a Go runtime panic). -/
def goHexDecodeAux : List Char → Nat → Option (List Nat)
  | c1 :: c2 :: rest, room =>
    match hexVal c1, hexVal c2 with
    | some a, some b =>
      match room with
      | 0 => none
      | room' + 1 => (goHexDecodeAux rest room').map (fun ds => (a * 16 + b) :: ds)
    | _, _ => some []
  | _, _ => some []

/-- Contents of a zeroed `bufLen`-byte buffer after `hex.Decode(buf, src)`
with the error ignored, or `none` when the call panics. -/
def goHexDecodeInto (bufLen : Nat) (src : List Char) : Option (List Nat) :=
  (goHexDecodeAux src bufLen).map
    (fun ds => ds ++ List.replicate (bufLen - ds.length) 0)

theorem hexVal_hexDigitChar : ∀ x, x < 16 → hexVal (hexDigitChar x) = some x := by
  decide

theorem hexEncodeChars_length (bs : List Nat) :
    (hexEncodeChars bs).length = 2 * bs.length := by
  induction bs with
  | nil => rfl
  | cons b rest ih => simp [hexEncodeChars, ih]; omega

theorem goHexDecodeAux_hexEncode (bs : List Nat) :
    ∀ room, bs.length ≤ room → (∀ b ∈ bs, b < 256) →
      goHexDecodeAux (hexEncodeChars bs) room = some bs := by
  induction bs with
  | nil => intro room _ _; cases room <;> rfl
  | cons b rest ih =>
    intro room hle hb
    obtain ⟨room', rfl⟩ : ∃ r, room = r + 1 :=
      ⟨room - 1, by simp at hle; omega⟩
    have hb1 : b < 256 := hb b (by simp)
    have h1 : hexVal (hexDigitChar (b / 16)) = some (b / 16) :=
      hexVal_hexDigitChar _ (by omega)
    have h2 : hexVal (hexDigitChar (b % 16)) = some (b % 16) :=
      hexVal_hexDigitChar _ (by omega)
    have hrest : goHexDecodeAux (hexEncodeChars rest) room' = some rest :=
      ih room' (by simp at hle; omega) (fun x hx => hb x (by simp [hx]))
    show goHexDecodeAux
        (hexDigitChar (b / 16) :: hexDigitChar (b % 16) :: hexEncodeChars rest)
        (room' + 1) = some (b :: rest)
    simp only [goHexDecodeAux, h1, h2, hrest]
    have : b / 16 * 16 + b % 16 = b := by omega
    rw [this]
    rfl

theorem goHexDecodeInto_hexEncode (bs : List Nat) (h : ∀ b ∈ bs, b < 256) :
    goHexDecodeInto bs.length (hexEncodeChars bs) = some bs := by
  unfold goHexDecodeInto
  rw [goHexDecodeAux_hexEncode bs bs.length le_rfl h]
  simp

/-- Result of a Go function returning `error`, with a third case for a
runtime panic cutting the function short. -/
inductive GoResult where
  | ok
  | err (msg : String)
  | crashed
deriving DecidableEq, Repr

/-- What a middleware does with the wrapped handler: invoke it, short-
circuit with a 400 response, or die in a runtime panic (no response). -/
inductive HandlerOutcome where
  | invoked
  | rejected400
  | crashed
deriving DecidableEq, Repr

/-- Model of Go `strconv.ParseInt(s, 10, 64)`: optional sign, at least one
digit, nothing else, and the value must fit in a signed 64-bit integer. -/
def goParseInt64 (s : String) : Option Int :=
  let cs := s.toList
  let signDigits : Bool × List Char :=
    match cs with
    | '+' :: rest => (false, rest)
    | '-' :: rest => (true, rest)
    | _ => (false, cs)
  let ds := signDigits.2
  if ds = [] then none
  else if ds.all (fun c => c.isDigit) then
    let n : Nat := ds.foldl (fun acc c => acc * 10 + (c.toNat - 48)) 0
    let v : Int := if signDigits.1 then -(n : Int) else (n : Int)
    if -(2 ^ 63) ≤ v ∧ v ≤ 2 ^ 63 - 1 then some v else none
  else none

/-- Model of Go `strings.SplitN(s, "=", 2)`: `none` when `s` holds no `=`
(Go returns the one-element slice `[s]`), otherwise the parts before and
after the first `=`. -/
def splitFirstEq : List Char → Option (List Char × List Char)
  | [] => none
  | c :: rest =>
      if c = '=' then some ([], rest)
      else (splitFirstEq rest).map (fun p => (c :: p.1, p.2))

namespace SlackRequestValidator

/-- Model of `SlackRequestValidator.validate` (slack-request-validator.go
lines 25-73).  `mac secret payload` stands for the HMAC-SHA256 digest bytes
of `payload` under `secret`; `now` is the value of `time.Now()` in seconds,
and the header timestamp is `time.Unix(ts, 0)`, so `Before(now.Add(-5m))`
is `ts < now - 300`.  The error messages carrying formatted timestamps are
abbreviated; only which branch is taken matters to the middleware. -/
def validate (mac : String → String → List Nat) (secret sigHeader tsHeader : String)
    (now : Int) (body : String) : GoResult :=
  if sigHeader.length = 0 then
    GoResult.err "Missing \"X-Slack-Signature\" header"
  else
    match splitFirstEq sigHeader.toList with
    | none => GoResult.err ("Invalid signature format \"" ++ sigHeader ++ "\"")
    | some (versionChars, signatureChars) =>
      if tsHeader.length = 0 then
        GoResult.err "Missing \"X-Slack-Request-Timestamp\" header"
      else
        match goParseInt64 tsHeader with
        | none => GoResult.err ("Invalid timestamp: " ++ tsHeader)
        | some ts =>
          if ts < now - 300 then GoResult.err "Request is too old"
          else
            let payload := String.mk versionChars ++ ":" ++ tsHeader ++ ":" ++ body
            match goHexDecodeInto 32 signatureChars with
            | none => GoResult.crashed
            | some actual =>
              if mac secret payload = actual then GoResult.ok
              else GoResult.err "Invalid SHA256 signature"

/-- Model of `SlackRequestValidator.Middleware` (lines 75-83): a validation
error short-circuits with 400, success invokes the wrapped handler, and a
panic inside `validate` propagates. -/
def Middleware (mac : String → String → List Nat)
    (secret sigHeader tsHeader : String) (now : Int) (body : String) :
    HandlerOutcome :=
  match validate mac secret sigHeader tsHeader now body with
  | GoResult.ok => HandlerOutcome.invoked
  | GoResult.err _ => HandlerOutcome.rejected400
  | GoResult.crashed => HandlerOutcome.crashed

end SlackRequestValidator

/-- A concrete stand-in for the HMAC-SHA256 digest function, used to
evaluate the validator on explicit inputs. -/
def slackMacOnes : String → String → List Nat := fun _ _ => List.replicate 32 1

/-- C5, failing input: a request whose signature part is 66 valid hex
characters (more than the 64 that fit the 32-byte digest buffer) and whose
timestamp is inside the 5-minute window makes the verifier panic inside
`hex.Decode` instead of rejecting with 400; the same request with a 64
character (mismatching) signature is rejected with 400 as the claim
describes. -/
theorem claim_C5_oversized_signature_crash :
    SlackRequestValidator.Middleware slackMacOnes "secret"
        ("v0=" ++ String.mk (List.replicate 66 '0')) "0" 0 "body" =
      HandlerOutcome.crashed ∧
    SlackRequestValidator.Middleware slackMacOnes "secret"
        ("v0=" ++ String.mk (List.replicate 64 '0')) "0" 0 "body" =
      HandlerOutcome.rejected400 := by
  constructor <;> decide

namespace GitHubWebHookValidator

/-- Model of `GitHubWebHookValidator.verifySignatureSHA1`
(github-webhook-validator.go lines 38-54): exact 45-character length and
`sha1=` prefix, then the remaining 40 characters are hex-decoded into a
20-byte buffer (never overflowing, because the length is exact) and
compared with the HMAC-SHA1 digest `mac1 secret body`. -/
def verifySignatureSHA1 (mac1 : String → String → List Nat)
    (secret sig body : String) : Bool :=
  if sig.length ≠ 45 ∨ "sha1=".toList.isPrefixOf sig.toList ≠ true then false
  else
    match goHexDecodeInto 20 (sig.toList.drop 5) with
    | none => false
    | some actual => decide (mac1 secret body = actual)

/-- Model of `GitHubWebHookValidator.verifySignatureSHA256` (lines 56-72),
same shape with a 71-character header and a 32-byte digest. -/
def verifySignatureSHA256 (mac256 : String → String → List Nat)
    (secret sig body : String) : Bool :=
  if sig.length ≠ 71 ∨ "sha256=".toList.isPrefixOf sig.toList ≠ true then false
  else
    match goHexDecodeInto 32 (sig.toList.drop 7) with
    | none => false
    | some actual => decide (mac256 secret body = actual)

/-- Model of `GitHubWebHookValidator.parseHook` (lines 74-107): both
signature headers must be present and both digests must verify; an
unrecognized event-type header is only logged, never an error, so it does
not appear here. -/
def parseHook (mac1 mac256 : String → String → List Nat)
    (secret sig1 sig256 body : String) : GoResult :=
  if sig1.length = 0 then GoResult.err "Missing \"X-Hub-Signature\" header"
  else if sig256.length = 0 then
    GoResult.err "Missing \"X-Hub-Signature-256\" header"
  else if verifySignatureSHA1 mac1 secret sig1 body = false then
    GoResult.err "Invalid SHA1 signature"
  else if verifySignatureSHA256 mac256 secret sig256 body = false then
    GoResult.err "Invalid SHA256 signature"
  else GoResult.ok

/-- Model of `GitHubWebHookValidator.Middleware` (lines 109-117). -/
def Middleware (mac1 mac256 : String → String → List Nat)
    (secret sig1 sig256 body : String) : HandlerOutcome :=
  match parseHook mac1 mac256 secret sig1 sig256 body with
  | GoResult.ok => HandlerOutcome.invoked
  | GoResult.err _ => HandlerOutcome.rejected400
  | GoResult.crashed => HandlerOutcome.crashed

theorem verifySignatureSHA1_iff (mac1 : String → String → List Nat)
    (secret sig body : String) :
    verifySignatureSHA1 mac1 secret sig body = true ↔
      (sig.length = 45 ∧ "sha1=".toList.isPrefixOf sig.toList = true ∧
        goHexDecodeInto 20 (sig.toList.drop 5) = some (mac1 secret body)) := by
  unfold verifySignatureSHA1
  split_ifs with h
  · simp only [Bool.false_eq_true, false_iff]
    rintro ⟨hl, hp, _⟩
    rcases h with h | h
    · exact h hl
    · exact h hp
  · push_neg at h
    cases hd : goHexDecodeInto 20 (sig.toList.drop 5) with
    | none => simp [h.1, h.2, hd]
    | some actual =>
      simp only [decide_eq_true_eq, h.1, h.2, hd, true_and, Option.some.injEq]
      constructor
      · intro he
        rw [he]
      · intro he
        rw [he]

theorem verifySignatureSHA256_iff (mac256 : String → String → List Nat)
    (secret sig body : String) :
    verifySignatureSHA256 mac256 secret sig body = true ↔
      (sig.length = 71 ∧ "sha256=".toList.isPrefixOf sig.toList = true ∧
        goHexDecodeInto 32 (sig.toList.drop 7) = some (mac256 secret body)) := by
  unfold verifySignatureSHA256
  split_ifs with h
  · simp only [Bool.false_eq_true, false_iff]
    rintro ⟨hl, hp, _⟩
    rcases h with h | h
    · exact h hl
    · exact h hp
  · push_neg at h
    cases hd : goHexDecodeInto 32 (sig.toList.drop 7) with
    | none => simp [h.1, h.2, hd]
    | some actual =>
      simp only [decide_eq_true_eq, h.1, h.2, hd, true_and, Option.some.injEq]
      constructor
      · intro he
        rw [he]
      · intro he
        rw [he]

theorem parseHook_ok_iff (mac1 mac256 : String → String → List Nat)
    (secret sig1 sig256 body : String) :
    parseHook mac1 mac256 secret sig1 sig256 body = GoResult.ok ↔
      (sig1.length ≠ 0 ∧ sig256.length ≠ 0 ∧
        verifySignatureSHA1 mac1 secret sig1 body = true ∧
        verifySignatureSHA256 mac256 secret sig256 body = true) := by
  unfold parseHook
  split_ifs with h1 h2 h3 h4 <;>
    simp_all

theorem parseHook_ne_crashed (mac1 mac256 : String → String → List Nat)
    (secret sig1 sig256 body : String) :
    parseHook mac1 mac256 secret sig1 sig256 body ≠ GoResult.crashed := by
  unfold parseHook
  split_ifs <;> simp

end GitHubWebHookValidator

/-- Helper: prefix-shaped headers built from a digest satisfy the three
format checks of the SHA-1 verifier, and analogously for SHA-256. -/
theorem header_drop_eq (pre : String) (bs : List Nat) :
    ((pre ++ hexEncode bs).toList.drop pre.toList.length) = hexEncodeChars bs := by
  show ((pre ++ hexEncode bs).data.drop pre.data.length) = hexEncodeChars bs
  rw [String.data_append]
  exact List.drop_left' rfl

theorem header_isPrefixOf (pre : String) (bs : List Nat) :
    pre.toList.isPrefixOf (pre ++ hexEncode bs).toList = true := by
  rw [List.isPrefixOf_iff_prefix]
  show pre.data <+: (pre ++ hexEncode bs).data
  rw [String.data_append]
  exact List.prefix_append _ _

/-- C6: the source-control webhook middleware invokes the downstream
handler exactly when both signature headers are present with the exact
`sha1=`/`sha256=` prefix and exact hex length and each decodes (under Go
`hex.Decode` with its ignored error) to the corresponding HMAC digest of
the raw body under the shared secret; in every other case it responds 400
without invoking the handler.  Headers correctly derived from a body verify
against that body, and changing the body so that its HMAC-SHA1 digest
changes (as flipping any byte does, for a collision-free HMAC) makes the
same headers be rejected with 400. -/
theorem claim_C6_github_dual_hmac
    (mac1 mac256 : String → String → List Nat)
    (secret sig1 sig256 body body2 : String)
    (hlen1 : (mac1 secret body).length = 20)
    (hbyte1 : ∀ x ∈ mac1 secret body, x < 256)
    (hlen2 : (mac256 secret body).length = 32)
    (hbyte2 : ∀ x ∈ mac256 secret body, x < 256) :
    (GitHubWebHookValidator.Middleware mac1 mac256 secret sig1 sig256 body =
        HandlerOutcome.invoked ↔
      (sig1.length = 45 ∧ "sha1=".toList.isPrefixOf sig1.toList = true ∧
        goHexDecodeInto 20 (sig1.toList.drop 5) = some (mac1 secret body) ∧
        sig256.length = 71 ∧ "sha256=".toList.isPrefixOf sig256.toList = true ∧
        goHexDecodeInto 32 (sig256.toList.drop 7) = some (mac256 secret body))) ∧
    (GitHubWebHookValidator.Middleware mac1 mac256 secret sig1 sig256 body =
        HandlerOutcome.invoked ∨
      GitHubWebHookValidator.Middleware mac1 mac256 secret sig1 sig256 body =
        HandlerOutcome.rejected400) ∧
    (GitHubWebHookValidator.Middleware mac1 mac256 secret
        ("sha1=" ++ hexEncode (mac1 secret body))
        ("sha256=" ++ hexEncode (mac256 secret body)) body =
      HandlerOutcome.invoked) ∧
    (mac1 secret body2 ≠ mac1 secret body →
      GitHubWebHookValidator.Middleware mac1 mac256 secret
        ("sha1=" ++ hexEncode (mac1 secret body))
        ("sha256=" ++ hexEncode (mac256 secret body)) body2 =
      HandlerOutcome.rejected400) := by
  have hmw : ∀ s1 s256 b,
      GitHubWebHookValidator.Middleware mac1 mac256 secret s1 s256 b =
          HandlerOutcome.invoked ↔
        GitHubWebHookValidator.parseHook mac1 mac256 secret s1 s256 b =
          GoResult.ok := by
    intro s1 s256 b
    unfold GitHubWebHookValidator.Middleware
    cases h : GitHubWebHookValidator.parseHook mac1 mac256 secret s1 s256 b <;>
      simp
  have hmw400 : ∀ s1 s256 b,
      GitHubWebHookValidator.parseHook mac1 mac256 secret s1 s256 b ≠
          GoResult.ok →
        GitHubWebHookValidator.Middleware mac1 mac256 secret s1 s256 b =
          HandlerOutcome.rejected400 := by
    intro s1 s256 b hne
    unfold GitHubWebHookValidator.Middleware
    cases h : GitHubWebHookValidator.parseHook mac1 mac256 secret s1 s256 b
    · exact absurd h hne
    · rfl
    · exact absurd h (GitHubWebHookValidator.parseHook_ne_crashed _ _ _ _ _ _)
  -- format facts about the well-formed headers
  have hs1len : ("sha1=" ++ hexEncode (mac1 secret body)).length = 45 := by
    rw [String.length_append]
    show 5 + (hexEncodeChars (mac1 secret body)).length = 45
    rw [hexEncodeChars_length, hlen1]
  have hs2len : ("sha256=" ++ hexEncode (mac256 secret body)).length = 71 := by
    rw [String.length_append]
    show 7 + (hexEncodeChars (mac256 secret body)).length = 71
    rw [hexEncodeChars_length, hlen2]
  have hdec1 :
      goHexDecodeInto 20 (("sha1=" ++ hexEncode (mac1 secret body)).toList.drop 5) =
        some (mac1 secret body) := by
    have h5 : ("sha1=" : String).toList.length = 5 := rfl
    rw [← h5, header_drop_eq, ← hlen1]
    exact goHexDecodeInto_hexEncode _ hbyte1
  have hdec2 :
      goHexDecodeInto 32
          (("sha256=" ++ hexEncode (mac256 secret body)).toList.drop 7) =
        some (mac256 secret body) := by
    have h7 : ("sha256=" : String).toList.length = 7 := rfl
    rw [← h7, header_drop_eq, ← hlen2]
    exact goHexDecodeInto_hexEncode _ hbyte2
  refine ⟨?_, ?_, ?_, ?_⟩
  · rw [hmw, GitHubWebHookValidator.parseHook_ok_iff,
      GitHubWebHookValidator.verifySignatureSHA1_iff,
      GitHubWebHookValidator.verifySignatureSHA256_iff]
    constructor
    · rintro ⟨-, -, ⟨a1, a2, a3⟩, b1, b2, b3⟩
      exact ⟨a1, a2, a3, b1, b2, b3⟩
    · rintro ⟨a1, a2, a3, b1, b2, b3⟩
      exact ⟨by omega, by omega, ⟨a1, a2, a3⟩, b1, b2, b3⟩
  · by_cases h : GitHubWebHookValidator.parseHook mac1 mac256 secret sig1 sig256
        body = GoResult.ok
    · exact Or.inl ((hmw _ _ _).mpr h)
    · exact Or.inr (hmw400 _ _ _ h)
  · rw [hmw, GitHubWebHookValidator.parseHook_ok_iff]
    refine ⟨by omega, by omega, ?_, ?_⟩
    · rw [GitHubWebHookValidator.verifySignatureSHA1_iff]
      exact ⟨hs1len, header_isPrefixOf _ _, hdec1⟩
    · rw [GitHubWebHookValidator.verifySignatureSHA256_iff]
      exact ⟨hs2len, header_isPrefixOf _ _, hdec2⟩
  · intro hne
    apply hmw400
    intro hok
    rw [GitHubWebHookValidator.parseHook_ok_iff] at hok
    obtain ⟨-, -, hv1, -⟩ := hok
    rw [GitHubWebHookValidator.verifySignatureSHA1_iff] at hv1
    have h3 := hv1.2.2
    rw [hdec1] at h3
    exact hne (Option.some.inj h3).symm

/-- Concrete digest functions used to instantiate C6: distinct bodies get
distinct digests, so the flipped-body case is exercised. -/
def macd20 : String → String → List Nat :=
  fun _ m => (m.length % 256) :: List.replicate 19 0

/-- Concrete 32-byte digest function used to instantiate C6. -/
def macd32 : String → String → List Nat :=
  fun _ m => (m.length % 256) :: List.replicate 31 0

/-- Concrete instance of C6: correctly derived headers are accepted for the
original body and rejected for a body with a different digest. -/
theorem claim_C6_witness :
    GitHubWebHookValidator.Middleware macd20 macd32 "k"
        ("sha1=" ++ hexEncode (macd20 "k" "a"))
        ("sha256=" ++ hexEncode (macd32 "k" "a")) "a" =
      HandlerOutcome.invoked ∧
    GitHubWebHookValidator.Middleware macd20 macd32 "k"
        ("sha1=" ++ hexEncode (macd20 "k" "a"))
        ("sha256=" ++ hexEncode (macd32 "k" "a")) "bb" =
      HandlerOutcome.rejected400 := by
  have h := claim_C6_github_dual_hmac macd20 macd32 "k" "x" "y" "a" "bb"
    (by decide) (by decide) (by decide) (by decide)
  exact ⟨h.2.2.1, h.2.2.2 (by decide)⟩

/-!
Model of `SlackInteractionData.ParseState` (slack-interaction-handler.go
lines 87-194).  The request state is a Go `map[string]interface{}` of
blocks, each block a map from action name to a generic decoded JSON value;
Go map iteration order is arbitrary, so the maps are modelled as
association lists and the properties proved below are order-independent.
The RFC3339 parser (`time.Parse` and the `time.Time` JSON unmarshaller,
both Go standard library) is abstracted as a function
`parse : String → Option GoTime`.
-/

/-- Generic decoded JSON value as produced by `encoding/json` into
`interface{}`, restricted to the shapes `ParseState` type-asserts on;
`vother` covers numbers, booleans and null, for which every assertion used
here fails. -/
inductive GoVal where
  | vstr (s : String)
  | vmap (fields : List (String × GoVal))
  | varr (xs : List GoVal)
  | vother

/-- Go map indexing `m["k"]`: `none` models the nil interface a missing
key yields (every type assertion on it fails). -/
def lookupField : List (String × GoVal) → String → Option GoVal
  | [], _ => none
  | (k, v) :: rest, key => if k = key then some v else lookupField rest key

/-- The mutable locals of `ParseState` while the two loops run: the fields
copied into the event plus the date/time strings.  `dryRun` starts `true`
from the literal `Event{EventType: "INCIDENT", DryRun: true}`. -/
structure ParseAcc where
  notes : String
  postmortem : String
  startDate : String
  startTimeS : String
  endDate : String
  endTimeS : String
  dryRun : Bool
deriving DecidableEq, Repr

/-- Initial accumulator: Go zero-value strings and the `DryRun: true`
literal. -/
def initAcc : ParseAcc :=
  { notes := "", postmortem := "", startDate := "", startTimeS := "",
    endDate := "", endTimeS := "", dryRun := true }

/-- The `checkbox-action` inner loop: scan the selected options, stop at
the first whose `value` is `"value-0"` (clearing dry-run and breaking), and
fail on the first malformed option seen before that. -/
def processCheckboxOptions : List GoVal → Bool → Except String Bool
  | [], dry => Except.ok dry
  | o :: rest, dry =>
    match o with
    | GoVal.vmap fields =>
      match lookupField fields "value" with
      | some (GoVal.vstr v) =>
          if v = "value-0" then Except.ok false
          else processCheckboxOptions rest dry
      | _ => Except.error "Bad checkbox option value"
    | _ => Except.error "Bad checkbox option"

/-- One iteration of the inner action loop: the value must be a JSON
object, then the action name is dispatched as in the Go `switch`
(unrecognized names are ignored). -/
def processAction (acc : ParseAcc) (actionName : String) (v : GoVal) :
    Except String ParseAcc :=
  match v with
  | GoVal.vmap value =>
    if actionName = "description-action" then
      match lookupField value "value" with
      | some (GoVal.vstr s) => Except.ok { acc with notes := s }
      | _ => Except.error "Bad description"
    else if actionName = "postmortem-action" then
      match lookupField value "value" with
      | some (GoVal.vstr s) => Except.ok { acc with postmortem := s }
      | _ => Except.error "Bad postmortem"
    else if actionName = "start-date-action" then
      match lookupField value "selected_date" with
      | some (GoVal.vstr s) => Except.ok { acc with startDate := s }
      | _ => Except.error "Bad start date"
    else if actionName = "start-time-action" then
      match lookupField value "selected_time" with
      | some (GoVal.vstr s) => Except.ok { acc with startTimeS := s }
      | _ => Except.error "Bad start time"
    else if actionName = "end-date-action" then
      match lookupField value "selected_date" with
      | some (GoVal.vstr s) => Except.ok { acc with endDate := s }
      | _ => Except.error "Bad end date"
    else if actionName = "end-time-action" then
      match lookupField value "selected_time" with
      | some (GoVal.vstr s) => Except.ok { acc with endTimeS := s }
      | _ => Except.error "Bad end time"
    else if actionName = "checkbox-action" then
      match lookupField value "selected_options" with
      | some (GoVal.varr opts) =>
        match processCheckboxOptions opts acc.dryRun with
        | Except.ok b => Except.ok { acc with dryRun := b }
        | Except.error msg => Except.error msg
      | _ => Except.error "Bad checkbox selected options"
    else Except.ok acc
  | _ => Except.error "Bad action object"

/-- The inner loop over one block of actions. -/
def processBlock : ParseAcc → List (String × GoVal) → Except String ParseAcc
  | acc, [] => Except.ok acc
  | acc, (name, v) :: rest =>
    match processAction acc name v with
    | Except.ok acc1 => processBlock acc1 rest
    | Except.error msg => Except.error msg

/-- The outer loop over every block of `state.values`; each block must be a
JSON object. -/
def collectFields : ParseAcc → List (String × GoVal) → Except String ParseAcc
  | acc, [] => Except.ok acc
  | acc, (_, blockV) :: rest =>
    match blockV with
    | GoVal.vmap block =>
      match processBlock acc block with
      | Except.ok acc1 => collectFields acc1 rest
      | Except.error msg => Except.error msg
    | _ => Except.error "Bad block object"

/-- Go `fmt.Sprintf("%02d", n)` for the non-negative values used here. -/
def pad2 (n : Nat) : String := if n < 10 then "0" ++ toString n else toString n

/-- The absolute timezone offset in nanoseconds after
`time.Duration(math.Abs(float64(tz))) * time.Second` rounded with
`Round(time.Minute)` (half away from zero): Go computes
`r := d % m; if r+r < m then d-r else d+(m-r)` for non-negative `d`.  All
arithmetic is exact in these integers: the float conversions Go routes the
values through are lossless for every offset below 2^53 nanoseconds (about
104 days), far beyond any timezone offset. -/
def goRoundedOffsetNs (a : Nat) : Nat :=
  if a * 1000000000 % 60000000000 + a * 1000000000 % 60000000000 <
      60000000000 then
    a * 1000000000 - a * 1000000000 % 60000000000
  else
    a * 1000000000 + (60000000000 - a * 1000000000 % 60000000000)

/-- The signed `HH:MM` suffix built from the user timezone offset (in
seconds): sign from the raw offset, then
`hours := int(tzOffset.Hours())` and
`minutes := int(tzOffset.Minutes()) - 60*hours` of the rounded absolute
offset, truncation of the exact ratios. -/
def tzSuffix (tz : Int) : String :=
  (if tz < 0 then "-" else "+") ++
    pad2 (goRoundedOffsetNs tz.natAbs / 3600000000000) ++ ":" ++
    pad2 (goRoundedOffsetNs tz.natAbs / 60000000000 -
      60 * (goRoundedOffsetNs tz.natAbs / 3600000000000))

/-- The timestamp text handed to the RFC3339 parser:
`fmt.Sprintf("%sT%s:00%s%02d:%02d", date, time, sign, hours, minutes)`. -/
def buildTimeString (date timeS : String) (tz : Int) : String :=
  date ++ "T" ++ timeS ++ ":00" ++ tzSuffix tz

namespace SlackInteractionData

/-- Model of `SlackInteractionData.ParseState`: run both loops, build the
start and end timestamps from the collected strings and the timezone
suffix, feed the end timestamp through the `NullTime` unmarshaller, fill in
the postmortem metadata map, and finish with `ValidateAndRectify` (whose
clock and id draw are the `now`/`newId` parameters). -/
def ParseState (parse : String → Option GoTime) (now newId tz : Int)
    (state : List (String × GoVal)) :
    Except String (Event (List (String × String))) :=
  match collectFields initAcc state with
  | Except.error msg => Except.error msg
  | Except.ok acc =>
    match parse (buildTimeString acc.startDate acc.startTimeS tz) with
    | none => Except.error "Bad start date and/or time"
    | some st =>
      match parse (buildTimeString acc.endDate acc.endTimeS tz) with
      | none => Except.error "Failed to parse timestamp for end time"
      | some et =>
        match Event.ValidateAndRectify now newId
            { id := 0, eventType := "INCIDENT", notes := acc.notes,
              startTime := st,
              endTime := NullTime.UnmarshalJSON (TimeJson.jtime et),
              metadata := [("postmortem", acc.postmortem)],
              dryRun := acc.dryRun } with
        | (ev2, none) => Except.ok ev2
        | (_, some msg) => Except.error msg

end SlackInteractionData

/-- Whether one checkbox option is the `"value-0"` (commit for real)
option. -/
def optionIsCommit (o : GoVal) : Bool :=
  match o with
  | GoVal.vmap fields =>
    match lookupField fields "value" with
    | some (GoVal.vstr v) => decide (v = "value-0")
    | _ => false
  | _ => false

/-- Whether an action value is a checkbox payload whose selected options
include the commit option. -/
def actionHasCommit (v : GoVal) : Bool :=
  match v with
  | GoVal.vmap fields =>
    match lookupField fields "selected_options" with
    | some (GoVal.varr opts) => opts.any optionIsCommit
    | _ => false
  | _ => false

/-- Whether a block contains a `checkbox-action` whose selected options
include the commit option. -/
def blockHasCommit (block : List (String × GoVal)) : Bool :=
  block.any (fun p => decide (p.1 = "checkbox-action") && actionHasCommit p.2)

/-- Whether any block of the request state carries the commit option. -/
def stateHasCommit (state : List (String × GoVal)) : Bool :=
  state.any (fun p =>
    match p.2 with
    | GoVal.vmap block => blockHasCommit block
    | _ => false)

theorem goRoundedOffsetNs_hours (a : Nat) :
    goRoundedOffsetNs a / 3600000000000 = (a + 30) / 60 / 60 := by
  unfold goRoundedOffsetNs
  split_ifs with h <;> omega

theorem goRoundedOffsetNs_minutes (a : Nat) :
    goRoundedOffsetNs a / 60000000000 -
        60 * (goRoundedOffsetNs a / 3600000000000) =
      (a + 30) / 60 % 60 := by
  unfold goRoundedOffsetNs
  split_ifs with h <;> omega

/-- The Go duration arithmetic agrees with plain nearest-minute rounding of
the absolute offset in seconds. -/
theorem tzSuffix_eq (tz : Int) :
    tzSuffix tz =
      (if tz < 0 then "-" else "+") ++
        pad2 ((tz.natAbs + 30) / 60 / 60) ++ ":" ++
        pad2 ((tz.natAbs + 30) / 60 % 60) := by
  unfold tzSuffix
  rw [goRoundedOffsetNs_minutes, goRoundedOffsetNs_hours]

/-- C8: the start timestamp is reconstructed by appending to
`<date>T<time>:00` a signed `HH:MM` suffix obtained by rounding the
absolute timezone offset to the nearest minute, and feeding the result to
the RFC3339 parser; when the parser fails the submission is rejected, and a
successful submission implies the parser accepted that exact string. -/
theorem claim_C8_start_time_construction
    (parse : String → Option GoTime) (now newId tz : Int)
    (state : List (String × GoVal)) (acc : ParseAcc) (d t : String)
    (hacc : collectFields initAcc state = Except.ok acc) :
    (buildTimeString d t tz =
      d ++ "T" ++ t ++ ":00" ++
        ((if tz < 0 then "-" else "+") ++
          pad2 ((tz.natAbs + 30) / 60 / 60) ++ ":" ++
          pad2 ((tz.natAbs + 30) / 60 % 60))) ∧
    (parse (buildTimeString acc.startDate acc.startTimeS tz) = none →
      SlackInteractionData.ParseState parse now newId tz state =
        Except.error "Bad start date and/or time") ∧
    (∀ ev, SlackInteractionData.ParseState parse now newId tz state =
        Except.ok ev →
      ∃ ts, parse (buildTimeString acc.startDate acc.startTimeS tz) = some ts) := by
  refine ⟨?_, ?_, ?_⟩
  · unfold buildTimeString
    rw [tzSuffix_eq]
  · intro hp
    unfold SlackInteractionData.ParseState
    rw [hacc]
    dsimp only
    rw [hp]
  · intro ev hok
    cases hp : parse (buildTimeString acc.startDate acc.startTimeS tz) with
    | none =>
      unfold SlackInteractionData.ParseState at hok
      rw [hacc] at hok
      dsimp only at hok
      rw [hp] at hok
      cases hok
    | some ts => exact ⟨ts, rfl⟩

/-- Concrete instance of C8: with an everywhere-failing parser the empty
submission is rejected with the start-time error. -/
theorem claim_C8_witness :
    SlackInteractionData.ParseState (fun _ => none) 9 7 0 [] =
      Except.error "Bad start date and/or time" :=
  (claim_C8_start_time_construction (fun _ => none) 9 7 0 [] initAcc "" ""
    rfl).2.1 rfl

theorem processCheckboxOptions_dryRun (opts : List GoVal) :
    ∀ dry b, processCheckboxOptions opts dry = Except.ok b →
      (b = false ↔ (dry = false ∨ opts.any optionIsCommit = true)) := by
  induction opts with
  | nil =>
    intro dry b h
    simp only [processCheckboxOptions] at h
    cases h
    simp
  | cons o rest ih =>
    intro dry b h
    cases o with
    | vstr s => simp [processCheckboxOptions] at h
    | varr xs => simp [processCheckboxOptions] at h
    | vother => simp [processCheckboxOptions] at h
    | vmap fields =>
      simp only [processCheckboxOptions] at h
      cases hl : lookupField fields "value" with
      | none =>
        rw [hl] at h
        simp at h
      | some fv =>
        rw [hl] at h
        cases fv with
        | vmap fs => simp at h
        | varr xs => simp at h
        | vother => simp at h
        | vstr v =>
          dsimp only at h
          by_cases hv : v = "value-0"
          · rw [if_pos hv] at h
            cases h
            simp [List.any_cons, optionIsCommit, hl, hv]
          · rw [if_neg hv] at h
            rw [ih dry b h]
            simp [List.any_cons, optionIsCommit, hl, hv]

theorem processAction_dryRun (acc acc' : ParseAcc) (actionName : String)
    (v : GoVal) (h : processAction acc actionName v = Except.ok acc') :
    (acc'.dryRun = false ↔
      (acc.dryRun = false ∨
        (actionName = "checkbox-action" ∧ actionHasCommit v = true))) := by
  cases v with
  | vstr s => simp [processAction] at h
  | varr xs => simp [processAction] at h
  | vother => simp [processAction] at h
  | vmap value =>
    simp only [processAction] at h
    split_ifs at h with h1 h2 h3 h4 h5 h6 h7
    · cases hl : lookupField value "value" with
      | none => rw [hl] at h; simp at h
      | some fv =>
        rw [hl] at h
        cases fv with
        | vstr s =>
          dsimp only at h
          simp only [Except.ok.injEq] at h
          subst h
          subst h1
          simp
        | vmap fs => simp at h
        | varr xs => simp at h
        | vother => simp at h
    · cases hl : lookupField value "value" with
      | none => rw [hl] at h; simp at h
      | some fv =>
        rw [hl] at h
        cases fv with
        | vstr s =>
          dsimp only at h
          simp only [Except.ok.injEq] at h
          subst h
          subst h2
          simp
        | vmap fs => simp at h
        | varr xs => simp at h
        | vother => simp at h
    · cases hl : lookupField value "selected_date" with
      | none => rw [hl] at h; simp at h
      | some fv =>
        rw [hl] at h
        cases fv with
        | vstr s =>
          dsimp only at h
          simp only [Except.ok.injEq] at h
          subst h
          subst h3
          simp
        | vmap fs => simp at h
        | varr xs => simp at h
        | vother => simp at h
    · cases hl : lookupField value "selected_time" with
      | none => rw [hl] at h; simp at h
      | some fv =>
        rw [hl] at h
        cases fv with
        | vstr s =>
          dsimp only at h
          simp only [Except.ok.injEq] at h
          subst h
          subst h4
          simp
        | vmap fs => simp at h
        | varr xs => simp at h
        | vother => simp at h
    · cases hl : lookupField value "selected_date" with
      | none => rw [hl] at h; simp at h
      | some fv =>
        rw [hl] at h
        cases fv with
        | vstr s =>
          dsimp only at h
          simp only [Except.ok.injEq] at h
          subst h
          subst h5
          simp
        | vmap fs => simp at h
        | varr xs => simp at h
        | vother => simp at h
    · cases hl : lookupField value "selected_time" with
      | none => rw [hl] at h; simp at h
      | some fv =>
        rw [hl] at h
        cases fv with
        | vstr s =>
          dsimp only at h
          simp only [Except.ok.injEq] at h
          subst h
          subst h6
          simp
        | vmap fs => simp at h
        | varr xs => simp at h
        | vother => simp at h
    · cases hl : lookupField value "selected_options" with
      | none => rw [hl] at h; simp at h
      | some fv =>
        rw [hl] at h
        cases fv with
        | varr opts =>
          dsimp only at h
          cases hpc : processCheckboxOptions opts acc.dryRun with
          | error msg => rw [hpc] at h; simp at h
          | ok b =>
            rw [hpc] at h
            simp only [Except.ok.injEq] at h
            subst h
            subst h7
            have hiff := processCheckboxOptions_dryRun opts acc.dryRun b hpc
            simp only [actionHasCommit, hl]
            simp [hiff]
        | vstr s => simp at h
        | vmap fs => simp at h
        | vother => simp at h
    · simp only [Except.ok.injEq] at h
      subst h
      simp [h7]

theorem processBlock_dryRun (block : List (String × GoVal)) :
    ∀ acc acc', processBlock acc block = Except.ok acc' →
      (acc'.dryRun = false ↔
        (acc.dryRun = false ∨ blockHasCommit block = true)) := by
  induction block with
  | nil =>
    intro acc acc' h
    simp only [processBlock] at h
    cases h
    simp [blockHasCommit]
  | cons p rest ih =>
    intro acc acc' h
    obtain ⟨name, v⟩ := p
    simp only [processBlock] at h
    cases hpa : processAction acc name v with
    | error msg => rw [hpa] at h; simp at h
    | ok acc1 =>
      rw [hpa] at h
      dsimp only at h
      have h1 := processAction_dryRun acc acc1 name v hpa
      have h2 := ih acc1 acc' h
      have hcons : (blockHasCommit ((name, v) :: rest) = true) ↔
          ((name = "checkbox-action" ∧ actionHasCommit v = true) ∨
            blockHasCommit rest = true) := by
        simp [blockHasCommit, List.any_cons]
      rw [h2, h1, hcons]
      tauto

theorem collectFields_dryRun (state : List (String × GoVal)) :
    ∀ acc acc', collectFields acc state = Except.ok acc' →
      (acc'.dryRun = false ↔
        (acc.dryRun = false ∨ stateHasCommit state = true)) := by
  induction state with
  | nil =>
    intro acc acc' h
    simp only [collectFields] at h
    cases h
    simp [stateHasCommit]
  | cons p rest ih =>
    intro acc acc' h
    obtain ⟨name, blockV⟩ := p
    simp only [collectFields] at h
    cases blockV with
    | vstr s => simp at h
    | varr xs => simp at h
    | vother => simp at h
    | vmap block =>
      dsimp only at h
      cases hpb : processBlock acc block with
      | error msg => rw [hpb] at h; simp at h
      | ok acc1 =>
        rw [hpb] at h
        dsimp only at h
        have h1 := processBlock_dryRun block acc acc1 hpb
        have h2 := ih acc1 acc' h
        have hcons : (stateHasCommit ((name, GoVal.vmap block) :: rest) = true) ↔
            (blockHasCommit block = true ∨ stateHasCommit rest = true) := by
          simp [stateHasCommit, List.any_cons]
        rw [h2, h1, hcons]
        tauto

/-- C9: for every interactive submission that parses successfully, the
resulting event is taken out of dry-run mode exactly when some block of the
request state carries a `checkbox-action` whose selected options include
the option with value `"value-0"`; absent that option the event stays in
dry-run (log-only) mode no matter what else the state holds. -/
theorem claim_C9_dryRun_iff (parse : String → Option GoTime)
    (now newId tz : Int) (state : List (String × GoVal))
    (ev : Event (List (String × String)))
    (h : SlackInteractionData.ParseState parse now newId tz state =
      Except.ok ev) :
    (ev.dryRun = false ↔ stateHasCommit state = true) := by
  unfold SlackInteractionData.ParseState at h
  cases hcf : collectFields initAcc state with
  | error msg => rw [hcf] at h; simp at h
  | ok acc =>
    rw [hcf] at h
    dsimp only at h
    cases hp1 : parse (buildTimeString acc.startDate acc.startTimeS tz) with
    | none => rw [hp1] at h; simp at h
    | some st =>
      rw [hp1] at h
      dsimp only at h
      cases hp2 : parse (buildTimeString acc.endDate acc.endTimeS tz) with
      | none => rw [hp2] at h; simp at h
      | some et =>
        rw [hp2] at h
        dsimp only at h
        rcases hvr : Event.ValidateAndRectify now newId
            { id := 0, eventType := "INCIDENT", notes := acc.notes,
              startTime := st,
              endTime := NullTime.UnmarshalJSON (TimeJson.jtime et),
              metadata := [("postmortem", acc.postmortem)],
              dryRun := acc.dryRun } with ⟨ev2, msgOpt⟩
        rw [hvr] at h
        cases msgOpt with
        | some msg => simp at h
        | none =>
          simp only [Except.ok.injEq] at h
          subst h
          have hfr := (vr_frame now newId
            { id := 0, eventType := "INCIDENT", notes := acc.notes,
              startTime := st,
              endTime := NullTime.UnmarshalJSON (TimeJson.jtime et),
              metadata := [("postmortem", acc.postmortem)],
              dryRun := acc.dryRun }).2.2.2.1
          rw [hvr] at hfr
          dsimp only at hfr
          rw [hfr]
          have hdr := collectFields_dryRun state initAcc acc hcf
          rw [hdr]
          simp [initAcc]

/-- Everywhere-succeeding parser used to instantiate C9. -/
def parseC9 : String → Option GoTime := fun _ => some 5

/-- Request state used to instantiate C9: one block with a description and
a checkbox carrying the commit option. -/
def stateC9 : List (String × GoVal) :=
  [("b1", GoVal.vmap
    [("description-action", GoVal.vmap [("value", GoVal.vstr "n")]),
     ("checkbox-action", GoVal.vmap
       [("selected_options",
         GoVal.varr [GoVal.vmap [("value", GoVal.vstr "value-0")]])])])]

/-- Concrete instance of C9: the commit option being present makes the
parsed event leave dry-run mode. -/
theorem claim_C9_witness :
    ({ id := 7, eventType := "INCIDENT", notes := "n", startTime := 5,
       endTime := { valid := false, time := 5 },
       metadata := [("postmortem", "")], dryRun := false } :
      Event (List (String × String))).dryRun = false :=
  (claim_C9_dryRun_iff parseC9 9 7 0 stateC9 _ rfl).mpr rfl
